import Mathlib

/-!
# Verification of the gantt_dash calendar-grid and export engine

Shallow embedding of the core logic of `src/app.py` (EEZO 2026 task
dashboard): custom-order ranking, multi-key stable sorting
(`sort_dataframe`), temporal bucket generation (`pd.date_range` at
day/week/month granularity), the inclusive interval-overlap test, and the
two-sheet Excel workbook assembly (`create_excel_gantt_chart`).

Dates are embedded as proleptic-Gregorian year/month/day triples; `toDay`
maps a date to its (1-based) linear day number, which is the order used by
pandas `Timestamp` comparison and `timedelta` arithmetic.
-/

namespace GanttDash

/-! ## Calendar arithmetic -/

/-- Gregorian leap-year rule (as used by `pandas`/`datetime`). -/
def isLeap (y : Nat) : Bool :=
  y % 4 == 0 && (y % 100 != 0 || y % 400 == 0)

/-- Number of days in month `m` (1..12) of year `y`. -/
def daysInMonth (y m : Nat) : Nat :=
  if m = 2 then (if isLeap y then 29 else 28)
  else if m = 4 ∨ m = 6 ∨ m = 9 ∨ m = 11 then 30
  else 31

/-- Days of year `y` that lie strictly before month `m`. -/
def daysBeforeMonth (y : Nat) : Nat → Nat
  | 0 => 0
  | 1 => 0
  | Nat.succ m => daysBeforeMonth y m + daysInMonth y m

/-- Number of days in year `y`. -/
def daysInYear (y : Nat) : Nat := if isLeap y then 366 else 365

/-- Days lying strictly before year `y` (counting from year 0): 365 per
year plus one per leap year among `0, ..., y - 1` (closed form of the
Gregorian leap count, so that evaluation is cheap). -/
def daysBeforeYear (y : Nat) : Nat :=
  365 * y + (y + 3) / 4 - (y + 99) / 100 + (y + 399) / 400

/-- A calendar date, as stored in a pandas `Timestamp`. -/
structure Date where
  y : Nat
  m : Nat
  d : Nat
deriving DecidableEq, Repr

/-- The date is an actual calendar date. -/
def Date.Valid (x : Date) : Prop :=
  1 ≤ x.m ∧ x.m ≤ 12 ∧ 1 ≤ x.d ∧ x.d ≤ daysInMonth x.y x.m

instance (x : Date) : Decidable x.Valid := by
  unfold Date.Valid; infer_instance

/-- Linear day number of a date (day 1 = January 1 of year 0).  Pandas
timestamps are internally linear counts; comparison and `timedelta`
arithmetic on them is exactly arithmetic on `toDay`. -/
def toDay (x : Date) : Nat :=
  daysBeforeYear x.y + daysBeforeMonth x.y x.m + x.d

/-- The next calendar day (embeds `+ timedelta(days=1)`). -/
def nextDay (x : Date) : Date :=
  if x.d < daysInMonth x.y x.m then ⟨x.y, x.m, x.d + 1⟩
  else if x.m < 12 then ⟨x.y, x.m + 1, 1⟩
  else ⟨x.y + 1, 1, 1⟩

/-- Embeds `+ timedelta(days=n)`. -/
def addDays (x : Date) : Nat → Date
  | 0 => x
  | Nat.succ n => nextDay (addDays x n)

/-- The previous calendar day (embeds `- timedelta(days=1)`). -/
def predDay (x : Date) : Date :=
  if 1 < x.d then ⟨x.y, x.m, x.d - 1⟩
  else if 1 < x.m then ⟨x.y, x.m - 1, daysInMonth x.y (x.m - 1)⟩
  else ⟨x.y - 1, 12, 31⟩

/-- Embeds `- timedelta(days=n)`. -/
def subDays (x : Date) : Nat → Date
  | 0 => x
  | Nat.succ n => predDay (subDays x n)

/-- Python `date.weekday()`: Monday = 0, ..., Sunday = 6. -/
def pyWeekday (x : Date) : Nat := (toDay x + 4) % 7

/-- Months since year 0 (month index of a date). -/
def monthIdx (x : Date) : Nat := 12 * x.y + (x.m - 1)

/-- First day of the month with index `k`. -/
def ofMonthIdx (k : Nat) : Date := ⟨k / 12, k % 12 + 1, 1⟩

/-! ### Basic calendar lemmas -/

theorem daysInMonth_pos (y m : Nat) : 1 ≤ daysInMonth y m := by
  unfold daysInMonth
  split
  · split <;> omega
  · split <;> omega

set_option maxHeartbeats 2000000 in
theorem daysBeforeYear_succ (y : Nat) :
    daysBeforeYear (y + 1) = daysBeforeYear y + daysInYear y := by
  unfold daysBeforeYear daysInYear
  by_cases h : isLeap y = true
  · rw [if_pos h]
    simp only [isLeap, Bool.and_eq_true, beq_iff_eq, bne_iff_ne, Bool.or_eq_true,
      decide_eq_true_eq] at h
    omega
  · rw [if_neg h]
    simp only [isLeap, Bool.and_eq_true, beq_iff_eq, bne_iff_ne, Bool.or_eq_true,
      decide_eq_true_eq] at h
    push_neg at h
    by_cases h4 : y % 4 = 0
    · have hc := h h4
      clear h
      omega
    · clear h
      omega

theorem daysInYear_lb (y : Nat) : 365 ≤ daysInYear y := by
  unfold daysInYear; split <;> omega

theorem daysBeforeYear_mono {j k : Nat} (h : j ≤ k) :
    daysBeforeYear j ≤ daysBeforeYear k := by
  induction k with
  | zero =>
    have hj : j = 0 := by omega
    subst hj; exact le_refl _
  | succ k ih =>
    rcases Nat.lt_or_ge j (k + 1) with hl | hg
    · have h1 := ih (by omega)
      have h2 := daysBeforeYear_succ k
      have h3 := daysInYear_lb k
      omega
    · have hj : j = k + 1 := by omega
      subst hj; exact le_refl _

theorem daysBeforeMonth_succ (y m : Nat) (hm : 1 ≤ m) :
    daysBeforeMonth y (m + 1) = daysBeforeMonth y m + daysInMonth y m := by
  match m, hm with
  | Nat.succ m', _ => rfl

theorem daysBeforeMonth_13 (y : Nat) : daysBeforeMonth y 13 = daysInYear y := by
  show daysBeforeMonth y 13 = daysInYear y
  simp only [daysBeforeMonth, daysInMonth, daysInYear]
  norm_num
  cases h : isLeap y <;> simp [h]

theorem valid_mk {y m d : Nat} :
    (Date.mk y m d).Valid ↔ 1 ≤ m ∧ m ≤ 12 ∧ 1 ≤ d ∧ d ≤ daysInMonth y m :=
  Iff.rfl

theorem toDay_mk (y m d : Nat) :
    toDay ⟨y, m, d⟩ = daysBeforeYear y + daysBeforeMonth y m + d := rfl

theorem toDay_nextDay (x : Date) (hx : x.Valid) : toDay (nextDay x) = toDay x + 1 := by
  obtain ⟨y, m, d⟩ := x
  obtain ⟨h1, h2, h3, h4⟩ := hx
  simp only at h1 h2 h3 h4
  unfold nextDay
  simp only
  by_cases hd : d < daysInMonth y m
  · simp only [if_pos hd, toDay_mk]
    omega
  · by_cases hm : m < 12
    · simp only [if_neg hd, if_pos hm, toDay_mk]
      have := daysBeforeMonth_succ y m h1
      omega
    · have hm12 : m = 12 := by omega
      subst hm12
      simp only [if_neg hd, if_neg hm, toDay_mk]
      have h13 := daysBeforeMonth_13 y
      have h12 : daysBeforeMonth y 13 = daysBeforeMonth y 12 + daysInMonth y 12 :=
        daysBeforeMonth_succ y 12 (by omega)
      have hby : daysBeforeYear (y + 1) = daysBeforeYear y + daysInYear y :=
        daysBeforeYear_succ y
      have hbm1 : daysBeforeMonth (y + 1) 1 = 0 := rfl
      omega

theorem valid_nextDay (x : Date) (hx : x.Valid) : (nextDay x).Valid := by
  obtain ⟨h1, h2, h3, h4⟩ := hx
  unfold nextDay
  by_cases hd : x.d < daysInMonth x.y x.m
  · simp only [if_pos hd]
    exact valid_mk.mpr ⟨h1, h2, by omega, by omega⟩
  · by_cases hm : x.m < 12
    · simp only [if_neg hd, if_pos hm]
      exact valid_mk.mpr ⟨by omega, by omega, by omega, daysInMonth_pos _ _⟩
    · simp only [if_neg hd, if_neg hm]
      exact valid_mk.mpr ⟨by omega, by omega, by omega, daysInMonth_pos _ _⟩

theorem toDay_addDays (x : Date) (hx : x.Valid) (n : Nat) :
    toDay (addDays x n) = toDay x + n ∧ (addDays x n).Valid := by
  induction n with
  | zero => exact ⟨rfl, hx⟩
  | succ n ih =>
    refine ⟨?_, valid_nextDay _ ih.2⟩
    show toDay (nextDay (addDays x n)) = toDay x + (n + 1)
    rw [toDay_nextDay _ ih.2, ih.1]
    omega

theorem toDay_lb (x : Date) : 1 ≤ toDay x ↔ 1 ≤ x.d ∨ 1 ≤ daysBeforeYear x.y + daysBeforeMonth x.y x.m := by
  unfold toDay
  omega

theorem toDay_zero_one_one : toDay ⟨0, 1, 1⟩ = 1 := rfl

theorem daysInMonth_12 (y : Nat) : daysInMonth y 12 = 31 := rfl

theorem toDay_predDay (x : Date) (hx : x.Valid) (hy : x.m = 1 → x.d = 1 → 1 ≤ x.y) :
    toDay (predDay x) + 1 = toDay x ∧ (predDay x).Valid := by
  obtain ⟨y, m, d⟩ := x
  obtain ⟨h1, h2, h3, h4⟩ := hx
  simp only at h1 h2 h3 h4 hy
  unfold predDay
  simp only
  by_cases hd : 1 < d
  · simp only [if_pos hd, toDay_mk]
    refine ⟨by omega, valid_mk.mpr ⟨h1, h2, by omega, by omega⟩⟩
  · have hd1 : d = 1 := by omega
    subst hd1
    by_cases hm : 1 < m
    · simp only [if_neg hd, if_pos hm, toDay_mk]
      have hs := daysBeforeMonth_succ y (m - 1) (by omega)
      have hmm : m - 1 + 1 = m := by omega
      rw [hmm] at hs
      refine ⟨by omega, valid_mk.mpr ⟨by omega, by omega, daysInMonth_pos _ _, le_refl _⟩⟩
    · have hm1 : m = 1 := by omega
      subst hm1
      have hy1 : 1 ≤ y := hy rfl rfl
      simp only [if_neg hd, if_neg hm, toDay_mk]
      obtain ⟨y', rfl⟩ : ∃ y', y = y' + 1 := ⟨y - 1, by omega⟩
      have hby : daysBeforeYear (y' + 1) = daysBeforeYear y' + daysInYear y' :=
        daysBeforeYear_succ y'
      have h13 := daysBeforeMonth_13 y'
      have h12 : daysBeforeMonth y' 13 = daysBeforeMonth y' 12 + daysInMonth y' 12 :=
        daysBeforeMonth_succ y' 12 (by omega)
      have hd12 := daysInMonth_12 y'
      have hbm1 : daysBeforeMonth (y' + 1) 1 = 0 := rfl
      refine ⟨by simp only [Nat.add_sub_cancel]; omega,
        valid_mk.mpr ⟨by omega, by omega, by omega, by simp only [Nat.add_sub_cancel, hd12]; omega⟩⟩

theorem toDay_subDays (x : Date) (hx : x.Valid) (n : Nat) (hn : n + 1 ≤ toDay x) :
    toDay (subDays x n) = toDay x - n ∧ (subDays x n).Valid := by
  induction n with
  | zero => exact ⟨by simp [subDays], hx⟩
  | succ n ih =>
    obtain ⟨ihd, ihv⟩ := ih (by omega)
    have h2 : 2 ≤ toDay (subDays x n) := by omega
    have hy : (subDays x n).m = 1 → (subDays x n).d = 1 → 1 ≤ (subDays x n).y := by
      intro hm hd
      by_contra hcon
      have hy0 : (subDays x n).y = 0 := by omega
      have : toDay (subDays x n) = 1 := by
        unfold toDay
        rw [hm, hd, hy0]
        rfl
      omega
    obtain ⟨hp, hv⟩ := toDay_predDay (subDays x n) ihv hy
    exact ⟨by show toDay (predDay (subDays x n)) = _; omega, hv⟩

/-! ### Month-index lemmas -/

theorem valid_ofMonthIdx (k : Nat) : (ofMonthIdx k).Valid :=
  valid_mk.mpr ⟨by omega, by omega, le_refl _, daysInMonth_pos _ _⟩

theorem ofMonthIdx_monthIdx (x : Date) (hx : x.Valid) :
    ofMonthIdx (monthIdx x) = ⟨x.y, x.m, 1⟩ := by
  obtain ⟨h1, h2, h3, h4⟩ := hx
  unfold ofMonthIdx monthIdx
  simp only [Date.mk.injEq]
  exact ⟨by omega, by omega, trivial⟩

theorem toDay_ofMonthIdx_succ (k : Nat) :
    toDay (ofMonthIdx (k + 1)) = toDay (ofMonthIdx k) + daysInMonth (k / 12) (k % 12 + 1) := by
  unfold ofMonthIdx
  by_cases h : k % 12 = 11
  · have e1 : (k + 1) / 12 = k / 12 + 1 := by omega
    have e2 : (k + 1) % 12 = 0 := by omega
    rw [e1, e2, h]
    simp only [toDay_mk]
    have hby : daysBeforeYear (k / 12 + 1) = daysBeforeYear (k / 12) + daysInYear (k / 12) :=
      daysBeforeYear_succ (k / 12)
    have h13 := daysBeforeMonth_13 (k / 12)
    have h12 : daysBeforeMonth (k / 12) 13 =
        daysBeforeMonth (k / 12) 12 + daysInMonth (k / 12) 12 :=
      daysBeforeMonth_succ (k / 12) 12 (by omega)
    have hbm1 : daysBeforeMonth (k / 12 + 1) (0 + 1) = 0 := rfl
    have : (11 : Nat) + 1 = 12 := rfl
    rw [this]
    omega
  · have e1 : (k + 1) / 12 = k / 12 := by omega
    have e2 : (k + 1) % 12 = k % 12 + 1 := by omega
    rw [e1, e2]
    simp only [toDay_mk]
    have hs := daysBeforeMonth_succ (k / 12) (k % 12 + 1) (by omega)
    omega

theorem toDay_ofMonthIdx_lt (k : Nat) :
    toDay (ofMonthIdx k) < toDay (ofMonthIdx (k + 1)) := by
  rw [toDay_ofMonthIdx_succ]
  have := daysInMonth_pos (k / 12) (k % 12 + 1)
  omega

theorem toDay_ofMonthIdx_mono {j k : Nat} (h : j ≤ k) :
    toDay (ofMonthIdx j) ≤ toDay (ofMonthIdx k) := by
  induction k with
  | zero => simp_all
  | succ k ih =>
    rcases Nat.lt_or_ge j (k + 1) with hl | hg
    · exact le_trans (ih (by omega)) (le_of_lt (toDay_ofMonthIdx_lt k))
    · have : j = k + 1 := by omega
      subst this; exact le_refl _

theorem toDay_monthIdx_sandwich (x : Date) (hx : x.Valid) :
    toDay (ofMonthIdx (monthIdx x)) ≤ toDay x ∧
      toDay x < toDay (ofMonthIdx (monthIdx x + 1)) := by
  obtain ⟨h1, h2, h3, h4⟩ := hx
  have hdiv : monthIdx x / 12 = x.y := by unfold monthIdx; omega
  have hmod : monthIdx x % 12 + 1 = x.m := by unfold monthIdx; omega
  constructor
  · rw [ofMonthIdx_monthIdx x ⟨h1, h2, h3, h4⟩]
    simp only [toDay_mk, toDay]
    omega
  · rw [toDay_ofMonthIdx_succ, ofMonthIdx_monthIdx x ⟨h1, h2, h3, h4⟩, hdiv, hmod]
    simp only [toDay_mk, toDay]
    omega

theorem monthIdx_le_of_toDay_le {s e : Date} (hs : s.Valid) (he : e.Valid)
    (h : toDay s ≤ toDay e) : monthIdx s ≤ monthIdx e := by
  by_contra hcon
  have h1 : monthIdx e + 1 ≤ monthIdx s := by omega
  have h2 := toDay_ofMonthIdx_mono h1
  have h3 := (toDay_monthIdx_sandwich s hs).1
  have h4 := (toDay_monthIdx_sandwich e he).2
  omega

/-- Search lemma: a strictly increasing `Nat` partition locates every point. -/
theorem exists_interval_step (f : Nat → Nat) :
    ∀ (c n : Nat), f 0 ≤ n → n < f c → ∃ i, i < c ∧ f i ≤ n ∧ n < f (i + 1) := by
  intro c
  induction c with
  | zero => intro n h0 hc; omega
  | succ c ih =>
    intro n h0 hc
    by_cases hn : n < f c
    · obtain ⟨i, hi, hl, hr⟩ := ih n h0 hn
      exact ⟨i, by omega, hl, hr⟩
    · exact ⟨c, by omega, by omega, hc⟩

/-! ## Temporal bucket generation

Embeddings of the `pd.date_range` calls in `create_excel_gantt_chart`
(src/app.py lines 333-349).  `pd.date_range(start, end, freq)` yields the
ordered sequence of anchor timestamps of the given frequency lying in
`[start, end]`, rolling `start` forward to the first anchor when it is not
itself one; it is empty when `start > end`. -/

/-- `pd.date_range(start=s, end=e, freq="D")`: every day of `[s, e]`. -/
def dateRangeD (s e : Date) : List Date :=
  (List.range (toDay e + 1 - toDay s)).map (fun i => addDays s i)

/-- `pd.date_range(start=s, end=e, freq="W-MON")`: every Monday in `[s, e]`,
starting from the first Monday on/after `s`. -/
def dateRangeWMon (s e : Date) : List Date :=
  let m0 := addDays s ((7 - pyWeekday s) % 7)
  (List.range ((toDay e + 1 - toDay m0 + 6) / 7)).map (fun i => addDays m0 (7 * i))

/-- `pd.date_range(start=s, end=e, freq="MS")`: every first-of-month in
`[s, e]`, starting from the first month start on/after `s`. -/
def dateRangeMS (s e : Date) : List Date :=
  let k0 := if s.d ≤ 1 then monthIdx s else monthIdx s + 1
  (List.range (monthIdx e + 1 - k0)).map (fun i => ofMonthIdx (k0 + i))

/-- The `date_list` computation of `create_excel_gantt_chart`
(src/app.py lines 333-349): day → all days of the range; week → Mondays
from the Monday on/before `start_date` (`start_date -
timedelta(days=start_date.weekday())`); month → month starts from the
first of `start_date`'s month (`start_date.replace(day=1)`). -/
def dateList (granularity : String) (start_date end_date : Date) : List Date :=
  if granularity = "day" then
    dateRangeD start_date end_date
  else if granularity = "week" then
    dateRangeWMon (subDays start_date (pyWeekday start_date)) end_date
  else
    dateRangeMS ⟨start_date.y, start_date.m, 1⟩ end_date

/-- The per-column period of a date-list entry (src/app.py lines 463-476):
day → `[d, d]`; week → `[d, d + 6 days]`; month → `[d, first of next month
- 1 day]` (rolling December into January of the next year). -/
def periodOf (granularity : String) (d : Date) : Date × Date :=
  if granularity = "day" then (d, d)
  else if granularity = "week" then (d, addDays d 6)
  else
    (d, predDay (if d.m = 12 then ⟨d.y + 1, 1, 1⟩ else ⟨d.y, d.m + 1, 1⟩))

/-- The bucket sequence the export grid uses: one `[period_start,
period_end]` interval per `date_list` column. -/
def bucketsOf (granularity : String) (start_date end_date : Date) : List (Date × Date) :=
  (dateList granularity start_date end_date).map (fun d => periodOf granularity d)

/-- The bucket-sequence invariants claimed by the spec, over day numbers:
non-emptiness, per-bucket non-emptiness, contiguity, strictly increasing
starts, non-overlap, and coverage of every day of `[S, E]`. -/
def GoodBuckets (B : List (Date × Date)) (S E : Nat) : Prop :=
  B ≠ [] ∧
  (∀ i (h : i < B.length), toDay (B.get ⟨i, h⟩).1 ≤ toDay (B.get ⟨i, h⟩).2) ∧
  (∀ i (h1 : i + 1 < B.length) (h2 : i < B.length),
    toDay (B.get ⟨i + 1, h1⟩).1 = toDay (B.get ⟨i, h2⟩).2 + 1) ∧
  (∀ i j (hi : i < B.length) (hj : j < B.length), i < j →
    toDay (B.get ⟨i, hi⟩).1 < toDay (B.get ⟨j, hj⟩).1) ∧
  (∀ i j (hi : i < B.length) (hj : j < B.length), i < j →
    toDay (B.get ⟨i, hi⟩).2 < toDay (B.get ⟨j, hj⟩).1) ∧
  (∀ n, S ≤ n → n ≤ E → ∃ i, ∃ h : i < B.length,
    toDay (B.get ⟨i, h⟩).1 ≤ n ∧ n ≤ toDay (B.get ⟨i, h⟩).2)

/-- A bucket list whose day-number endpoints follow closed forms
`fs`/`fe` with contiguity and coverage of `[S, E]` satisfies all the
spec's bucket invariants. -/
theorem goodBuckets_of_shape (B : List (Date × Date)) (fs fe : Nat → Nat) (S E : Nat)
    (hne : B ≠ [])
    (hshape : ∀ i (h : i < B.length),
      toDay (B.get ⟨i, h⟩).1 = fs i ∧ toDay (B.get ⟨i, h⟩).2 = fe i)
    (hlen : ∀ i, fs i ≤ fe i)
    (hcont : ∀ i, fs (i + 1) = fe i + 1)
    (hlo : fs 0 ≤ S) (_hSE : S ≤ E) (hhi : E ≤ fe (B.length - 1)) :
    GoodBuckets B S E := by
  have hmono : StrictMono fs := strictMono_nat_of_lt_succ (fun i => by
    have := hlen i; have := hcont i; omega)
  have hij : ∀ i j, i < j → fe i < fs j := by
    intro i j hij
    have h1 : fs (i + 1) ≤ fs j := hmono.le_iff_le.mpr hij
    have := hcont i
    omega
  refine ⟨hne, ?_, ?_, ?_, ?_, ?_⟩
  · intro i h
    rw [(hshape i h).1, (hshape i h).2]; exact hlen i
  · intro i h1 h2
    rw [(hshape _ h1).1, (hshape _ h2).2]; exact hcont i
  · intro i j hi hj hlt
    rw [(hshape _ hi).1, (hshape _ hj).1]; exact hmono hlt
  · intro i j hi hj hlt
    rw [(hshape _ hi).2, (hshape _ hj).1]; exact hij i j hlt
  · intro n hSn hnE
    have hlen0 : 0 < B.length := List.length_pos.mpr hne
    have hE' : n < fs B.length := by
      have h1 : fs B.length = fe (B.length - 1) + 1 := by
        have := hcont (B.length - 1)
        have he : B.length - 1 + 1 = B.length := by omega
        rw [he] at this; exact this
      omega
    obtain ⟨i, hic, hl, hr⟩ :=
      exists_interval_step fs B.length n (by omega) hE'
    refine ⟨i, hic, ?_, ?_⟩
    · rw [(hshape i hic).1]; exact hl
    · rw [(hshape i hic).2]
      have := hcont i
      omega

/-! ### Dispatch lemmas for the string-valued mode flags -/

theorem dateList_day (s e : Date) : dateList "day" s e = dateRangeD s e := by
  unfold dateList; rw [if_pos rfl]

theorem dateList_week (s e : Date) :
    dateList "week" s e = dateRangeWMon (subDays s (pyWeekday s)) e := by
  unfold dateList; rw [if_neg (by decide), if_pos rfl]

theorem dateList_month (s e : Date) :
    dateList "month" s e = dateRangeMS ⟨s.y, s.m, 1⟩ e := by
  unfold dateList; rw [if_neg (by decide), if_neg (by decide)]

theorem periodOf_day (d : Date) : periodOf "day" d = (d, d) := by
  unfold periodOf; rw [if_pos rfl]

theorem periodOf_week (d : Date) : periodOf "week" d = (d, addDays d 6) := by
  unfold periodOf; rw [if_neg (by decide), if_pos rfl]

theorem periodOf_month (d : Date) :
    periodOf "month" d =
      (d, predDay (if d.m = 12 then ⟨d.y + 1, 1, 1⟩ else ⟨d.y, d.m + 1, 1⟩)) := by
  unfold periodOf; rw [if_neg (by decide), if_neg (by decide)]

/-! ### Day granularity -/

theorem goodBuckets_day (s e : Date) (hs : s.Valid) (hse : toDay s ≤ toDay e) :
    GoodBuckets (bucketsOf "day" s e) (toDay s) (toDay e) := by
  have hBeq : bucketsOf "day" s e =
      (List.range (toDay e + 1 - toDay s)).map (fun i => (addDays s i, addDays s i)) := by
    unfold bucketsOf
    rw [dateList_day]
    unfold dateRangeD
    simp only [periodOf_day, List.map_map]
    rfl
  rw [hBeq]
  refine goodBuckets_of_shape _ (fun i => toDay s + i) (fun i => toDay s + i) _ _
    ?_ ?_ (fun i => le_refl _) (fun i => rfl) (le_of_eq (Nat.add_zero (toDay s))) hse ?_
  · apply List.length_pos.mp
    simp only [List.length_map, List.length_range]
    omega
  · intro i h
    rw [List.get_eq_getElem]
    simp only [List.getElem_map, List.getElem_range]
    have := (toDay_addDays s hs i).1
    exact ⟨this, this⟩
  · simp only [List.length_map, List.length_range]
    omega

/-! ### Week granularity -/

theorem daysBeforeYear_ge (y : Nat) (h : 1 ≤ y) : 366 ≤ daysBeforeYear y := by
  have h1 : daysBeforeYear 1 ≤ daysBeforeYear y := daysBeforeYear_mono h
  have h2 : daysBeforeYear 1 = 366 := by decide
  omega

theorem toDay_ge_367 (s : Date) (hs : s.Valid) (hy : 1 ≤ s.y) : 367 ≤ toDay s := by
  obtain ⟨h1, h2, h3, h4⟩ := hs
  have := daysBeforeYear_ge s.y hy
  unfold toDay
  omega

theorem goodBuckets_week (s e : Date) (hs : s.Valid) (hy : 1 ≤ s.y)
    (hse : toDay s ≤ toDay e) :
    GoodBuckets (bucketsOf "week" s e) (toDay s) (toDay e) := by
  have h367 := toDay_ge_367 s hs hy
  have hw : pyWeekday s < 7 := Nat.mod_lt _ (by omega)
  obtain ⟨hMd, hMv⟩ := toDay_subDays s hs (pyWeekday s) (by omega)
  have hps : pyWeekday s = (toDay s + 4) % 7 := rfl
  have hwM : pyWeekday (subDays s (pyWeekday s)) = 0 := by
    show (toDay (subDays s (pyWeekday s)) + 4) % 7 = 0
    rw [hMd]
    omega
  have hzero : (7 - pyWeekday (subDays s (pyWeekday s))) % 7 = 0 := by
    rw [hwM]
  have hadd0 : ∀ z : Date, addDays z 0 = z := fun z => rfl
  have hBeq : bucketsOf "week" s e =
      (List.range ((toDay e + 1 - toDay (subDays s (pyWeekday s)) + 6) / 7)).map
        (fun i => (addDays (subDays s (pyWeekday s)) (7 * i),
                   addDays (addDays (subDays s (pyWeekday s)) (7 * i)) 6)) := by
    unfold bucketsOf
    rw [dateList_week]
    unfold dateRangeWMon
    simp only [hzero, hadd0, periodOf_week, List.map_map]
    rfl
  rw [hBeq]
  have hTa : ∀ i : Nat, toDay (addDays (subDays s (pyWeekday s)) (7 * i)) =
      toDay (subDays s (pyWeekday s)) + 7 * i ∧
      (addDays (subDays s (pyWeekday s)) (7 * i)).Valid :=
    fun i => toDay_addDays _ hMv (7 * i)
  have hlen' : ∀ i : Nat, toDay (subDays s (pyWeekday s)) + 7 * i ≤
      toDay (subDays s (pyWeekday s)) + 7 * i + 6 := fun i => by omega
  have hcont' : ∀ i : Nat, toDay (subDays s (pyWeekday s)) + 7 * (i + 1) =
      toDay (subDays s (pyWeekday s)) + 7 * i + 6 + 1 := fun i => by omega
  have hlo' : toDay (subDays s (pyWeekday s)) + 7 * 0 ≤ toDay s := by omega
  refine goodBuckets_of_shape _
    (fun i => toDay (subDays s (pyWeekday s)) + 7 * i)
    (fun i => toDay (subDays s (pyWeekday s)) + 7 * i + 6) _ _
    ?_ ?_ hlen' hcont' hlo' hse ?_
  · apply List.length_pos.mp
    simp only [List.length_map, List.length_range]
    omega
  · intro i h
    rw [List.get_eq_getElem]
    simp only [List.getElem_map, List.getElem_range]
    obtain ⟨hT, hV⟩ := hTa i
    exact ⟨hT, by rw [(toDay_addDays _ hV 6).1, hT]⟩
  · simp only [List.length_map, List.length_range]
    omega

/-! ### Month granularity -/

theorem nextMonthFirst_ofMonthIdx (k : Nat) :
    (if (ofMonthIdx k).m = 12 then (⟨(ofMonthIdx k).y + 1, 1, 1⟩ : Date)
     else ⟨(ofMonthIdx k).y, (ofMonthIdx k).m + 1, 1⟩) = ofMonthIdx (k + 1) := by
  unfold ofMonthIdx
  simp only
  by_cases h : k % 12 = 11
  · rw [if_pos (by omega)]
    simp only [Date.mk.injEq]
    exact ⟨by omega, by omega, trivial⟩
  · rw [if_neg (by omega)]
    simp only [Date.mk.injEq]
    exact ⟨by omega, by omega, trivial⟩

theorem toDay_predDay_ofMonthIdx (k : Nat) (hk : 12 ≤ k) :
    toDay (predDay (ofMonthIdx (k + 1))) + 1 = toDay (ofMonthIdx (k + 1)) ∧
      (predDay (ofMonthIdx (k + 1))).Valid := by
  apply toDay_predDay _ (valid_ofMonthIdx _)
  intro hm _
  unfold ofMonthIdx at hm ⊢
  simp only at hm ⊢
  omega

theorem dateRangeMS_firstOfMonth (y m : Nat) (e : Date) :
    dateRangeMS ⟨y, m, 1⟩ e =
      (List.range (monthIdx e + 1 - monthIdx ⟨y, m, 1⟩)).map
        (fun i => ofMonthIdx (monthIdx ⟨y, m, 1⟩ + i)) := rfl

theorem goodBuckets_month (s e : Date) (hs : s.Valid) (he : e.Valid) (hy : 1 ≤ s.y)
    (hse : toDay s ≤ toDay e) :
    GoodBuckets (bucketsOf "month" s e) (toDay s) (toDay e) := by
  obtain ⟨hs1, hs2, hs3, hs4⟩ := hs
  have hk0le : monthIdx s ≤ monthIdx e := monthIdx_le_of_toDay_le ⟨hs1, hs2, hs3, hs4⟩ he hse
  have hk12 : 12 ≤ monthIdx s := by unfold monthIdx; omega
  have hmieq : monthIdx (⟨s.y, s.m, 1⟩ : Date) = monthIdx s := rfl
  have hBeq : bucketsOf "month" s e =
      (List.range (monthIdx e + 1 - monthIdx s)).map
        (fun i => (ofMonthIdx (monthIdx s + i),
                   predDay (ofMonthIdx (monthIdx s + i + 1)))) := by
    unfold bucketsOf
    rw [dateList_month, dateRangeMS_firstOfMonth, hmieq, List.map_map]
    apply List.map_congr_left
    intro i _
    show periodOf "month" (ofMonthIdx (monthIdx s + i)) = _
    rw [periodOf_month, nextMonthFirst_ofMonthIdx]
  rw [hBeq]
  have hlen' : ∀ i : Nat, toDay (ofMonthIdx (monthIdx s + i)) ≤
      toDay (ofMonthIdx (monthIdx s + i + 1)) - 1 := fun i => by
    have := toDay_ofMonthIdx_lt (monthIdx s + i)
    omega
  have hcont' : ∀ i : Nat, toDay (ofMonthIdx (monthIdx s + (i + 1))) =
      toDay (ofMonthIdx (monthIdx s + i + 1)) - 1 + 1 := fun i => by
    have h1 := toDay_ofMonthIdx_lt (monthIdx s + i)
    have h2 : monthIdx s + (i + 1) = monthIdx s + i + 1 := by omega
    rw [h2]
    omega
  have hlo' : toDay (ofMonthIdx (monthIdx s + 0)) ≤ toDay s := by
    rw [Nat.add_zero]
    exact (toDay_monthIdx_sandwich s ⟨hs1, hs2, hs3, hs4⟩).1
  refine goodBuckets_of_shape _
    (fun i => toDay (ofMonthIdx (monthIdx s + i)))
    (fun i => toDay (ofMonthIdx (monthIdx s + i + 1)) - 1) _ _
    ?_ ?_ hlen' hcont' hlo' hse ?_
  · apply List.length_pos.mp
    simp only [List.length_map, List.length_range]
    omega
  · intro i h
    rw [List.get_eq_getElem]
    simp only [List.getElem_map, List.getElem_range]
    refine ⟨trivial, ?_⟩
    have := (toDay_predDay_ofMonthIdx (monthIdx s + i) (by omega)).1
    omega
  · simp only [List.length_map, List.length_range]
    have harg : monthIdx s + (monthIdx e + 1 - monthIdx s - 1) + 1 = monthIdx e + 1 := by
      omega
    rw [harg]
    have := (toDay_monthIdx_sandwich e he).2
    omega

/-! ## Tasks and the sort engine

A task row of the dataframe, with the fields `sort_dataframe` and
`create_excel_gantt_chart` read (src/app.py).  Column-name mapping (Lean
identifiers cannot contain the CJK column names): `assignee` = 担当者,
`category` = カテゴリ, `title` = タスク, `start` = 開始日, `finish` =
終了日.  `is_milestone` is precomputed at load time (`load_data`). -/

structure Task where
  assignee : String
  category : String
  title : String
  start : Date
  finish : Date
  is_milestone : Bool
deriving DecidableEq, Repr

/-- The rank function built by `sort_dataframe` from a user-supplied order
list: `order.index(x) if x in order else 999` (src/app.py lines 122-123 and
132-133). -/
def rankOf [DecidableEq α] (order : List α) (x : α) : Nat :=
  if x ∈ order then order.indexOf x else 999

/-- Two-column lexicographic comparison as performed by pandas
`sort_values([primary, secondary], ascending=[asc, True])`: the `asc` flag
applies to the primary column only, the secondary column is always
ascending. -/
def lexLe [LinearOrder α] [LinearOrder β] (asc : Bool)
    (p₁ : α) (s₁ : β) (p₂ : α) (s₂ : β) : Bool :=
  if p₁ = p₂ then decide (s₁ ≤ s₂)
  else if asc then decide (p₁ ≤ p₂) else decide (p₂ ≤ p₁)

/-- Insert into a sorted list, before the first element not below `x`. -/
def ordInsert (le : α → α → Bool) (x : α) : List α → List α
  | [] => [x]
  | y :: ys => if le x y then x :: y :: ys else y :: ordInsert le x ys

/-- Stable insertion sort.  pandas multi-column `sort_values` is a stable
sort by the lexicographic key (numpy `lexsort`); a stable sort's output is
uniquely determined by the input order and the total preorder, so this is
its exact embedding. -/
def insSort (le : α → α → Bool) : List α → List α
  | [] => []
  | x :: xs => ordInsert le x (insSort le xs)

/-- `sort_dataframe` (src/app.py lines 92-141): dispatch on `sort_by`
(values `"開始日"`, `"担当者"`, `"カテゴリ"`); `ascending = sort_order ==
"asc"` applies to the primary key only, the secondary tiebreak column is
always ascending; an unrecognized `sort_by` returns the copied dataframe
unchanged. -/
def sortDataframe (df : List Task) (sort_by sort_order : String)
    (category_order assignee_order : List String) : List Task :=
  if sort_by = "開始日" then
    insSort (fun a b => lexLe (sort_order = "asc")
      (toDay a.start) a.assignee (toDay b.start) b.assignee) df
  else if sort_by = "担当者" then
    insSort (fun a b => lexLe (sort_order = "asc")
      (rankOf assignee_order a.assignee) (toDay a.start)
      (rankOf assignee_order b.assignee) (toDay b.start)) df
  else if sort_by = "カテゴリ" then
    insSort (fun a b => lexLe (sort_order = "asc")
      (rankOf category_order a.category) (toDay a.start)
      (rankOf category_order b.category) (toDay b.start)) df
  else df

/-- The full (primary, secondary) sort key of a task under a given
`sort_by` mode, as compared by pandas in `sort_dataframe`. -/
inductive PandasKey
  | byStart (primary : Nat) (secondary : String)
  | byRank (primary : Nat) (secondary : Nat)
  | unsorted
deriving DecidableEq, Repr

/-- Key of one task row under the given sort mode. -/
def pandasKey (sort_by : String) (category_order assignee_order : List String)
    (t : Task) : PandasKey :=
  if sort_by = "開始日" then .byStart (toDay t.start) t.assignee
  else if sort_by = "担当者" then .byRank (rankOf assignee_order t.assignee) (toDay t.start)
  else if sort_by = "カテゴリ" then .byRank (rankOf category_order t.category) (toDay t.start)
  else .unsorted

/-! ### Generic facts about `insSort` -/

theorem mem_ordInsert (le : α → α → Bool) (x : α) (l : List α) (z : α) :
    z ∈ ordInsert le x l ↔ z = x ∨ z ∈ l := by
  induction l with
  | nil => simp [ordInsert]
  | cons y ys ih =>
    unfold ordInsert
    cases hle : le x y
    · rw [if_neg Bool.false_ne_true]
      simp only [List.mem_cons, ih]
      tauto
    · rw [if_pos rfl]
      simp only [List.mem_cons]

theorem pairwise_ordInsert (le : α → α → Bool)
    (htot : ∀ a b, le a b = false → le b a = true)
    (htrans : ∀ a b c, le a b = true → le b c = true → le a c = true)
    (x : α) (l : List α) (hl : l.Pairwise (fun a b => le a b = true)) :
    (ordInsert le x l).Pairwise (fun a b => le a b = true) := by
  induction l with
  | nil => simp [ordInsert]
  | cons y ys ih =>
    unfold ordInsert
    rcases List.pairwise_cons.mp hl with ⟨hy, hys⟩
    cases hle : le x y
    · rw [if_neg Bool.false_ne_true]
      refine List.pairwise_cons.mpr ⟨?_, ih hys⟩
      intro z hz
      rcases (mem_ordInsert le x ys z).mp hz with heq | hz'
      · subst heq
        exact htot _ _ hle
      · exact hy z hz'
    · rw [if_pos rfl]
      refine List.pairwise_cons.mpr ⟨?_, hl⟩
      intro z hz
      rcases List.mem_cons.mp hz with heq | hz'
      · subst heq
        exact hle
      · exact htrans _ _ _ hle (hy z hz')

theorem pairwise_insSort (le : α → α → Bool)
    (htot : ∀ a b, le a b = false → le b a = true)
    (htrans : ∀ a b c, le a b = true → le b c = true → le a c = true)
    (l : List α) :
    (insSort le l).Pairwise (fun a b => le a b = true) := by
  induction l with
  | nil => simp [insSort]
  | cons x xs ih =>
    exact pairwise_ordInsert le htot htrans x (insSort le xs) ih

/-- Stability of insertion: filtering by a key class commutes with
inserting, provided an element strictly below `x` never shares `x`'s
class. -/
theorem filter_ordInsert (le : α → α → Bool) (p : α → Bool) (x : α)
    (H : ∀ y, le x y = false → p x = true → p y = false)
    (l : List α) :
    (ordInsert le x l).filter p = (x :: l).filter p := by
  induction l with
  | nil => rfl
  | cons y ys ih =>
    unfold ordInsert
    cases hle : le x y
    · rw [if_neg Bool.false_ne_true]
      rw [List.filter_cons, ih]
      by_cases hpx : p x = true
      · have hpy : p y = false := H y hle hpx
        simp [List.filter_cons, hpx, hpy]
      · have hpx' : p x = false := by revert hpx; cases p x <;> simp
        simp [List.filter_cons, hpx']
    · rw [if_pos rfl]

theorem filter_insSort (le : α → α → Bool) (p : α → Bool)
    (H : ∀ x y, le x y = false → p x = true → p y = false)
    (l : List α) :
    (insSort le l).filter p = l.filter p := by
  induction l with
  | nil => rfl
  | cons x xs ih =>
    show (ordInsert le x (insSort le xs)).filter p = _
    rw [filter_ordInsert le p x (H x), List.filter_cons, List.filter_cons, ih]

/-! ### Properties of `lexLe` -/

theorem lexLe_total [LinearOrder α] [LinearOrder β] (asc : Bool)
    (p₁ : α) (s₁ : β) (p₂ : α) (s₂ : β)
    (h : lexLe asc p₁ s₁ p₂ s₂ = false) : lexLe asc p₂ s₂ p₁ s₁ = true := by
  unfold lexLe at *
  by_cases hp : p₁ = p₂
  · subst hp
    rw [if_pos rfl] at *
    simp only [decide_eq_false_iff_not, not_le] at h
    simp only [decide_eq_true_eq]
    exact le_of_lt h
  · rw [if_neg hp] at h
    rw [if_neg (Ne.symm hp)]
    cases asc <;> simp_all <;> exact le_of_lt h

theorem lexLe_trans [LinearOrder α] [LinearOrder β] (asc : Bool)
    (p₁ : α) (s₁ : β) (p₂ : α) (s₂ : β) (p₃ : α) (s₃ : β)
    (h12 : lexLe asc p₁ s₁ p₂ s₂ = true) (h23 : lexLe asc p₂ s₂ p₃ s₃ = true) :
    lexLe asc p₁ s₁ p₃ s₃ = true := by
  unfold lexLe at *
  by_cases hp12 : p₁ = p₂
  · subst hp12
    rw [if_pos rfl] at h12
    simp only [decide_eq_true_eq] at h12
    by_cases hp13 : p₁ = p₃
    · subst hp13
      rw [if_pos rfl] at h23 ⊢
      simp only [decide_eq_true_eq] at h23 ⊢
      exact le_trans h12 h23
    · rw [if_neg hp13] at h23 ⊢
      exact h23
  · rw [if_neg hp12] at h12
    by_cases hp23 : p₂ = p₃
    · subst hp23
      rw [if_neg hp12]
      exact h12
    · rw [if_neg hp23] at h23
      cases asc
      · simp only [Bool.false_eq_true, if_false, decide_eq_true_eq] at h12 h23 ⊢
        have h13 : p₃ ≤ p₁ := le_trans h23 h12
        have hp13 : p₁ ≠ p₃ := by
          intro he
          exact hp23 (le_antisymm (he ▸ h12) h23)
        simp [hp13, h13]
      · simp only [if_true, decide_eq_true_eq] at h12 h23 ⊢
        have h13 : p₁ ≤ p₃ := le_trans h12 h23
        have hp13 : p₁ ≠ p₃ := by
          intro he
          exact hp12 (le_antisymm h12 (he ▸ h23))
        simp [hp13, h13]

theorem lexLe_false_ne [LinearOrder α] [LinearOrder β] (asc : Bool)
    (p₁ : α) (s₁ : β) (p₂ : α) (s₂ : β)
    (h : lexLe asc p₁ s₁ p₂ s₂ = false) : ¬(p₁ = p₂ ∧ s₁ = s₂) := by
  rintro ⟨hp, hs⟩
  subst hp; subst hs
  unfold lexLe at h
  rw [if_pos rfl] at h
  simp at h

theorem lexLe_primary [LinearOrder α] [LinearOrder β] (asc : Bool)
    (p₁ : α) (s₁ : β) (p₂ : α) (s₂ : β)
    (h : lexLe asc p₁ s₁ p₂ s₂ = true) :
    if asc = true then p₁ ≤ p₂ else p₂ ≤ p₁ := by
  unfold lexLe at h
  by_cases hp : p₁ = p₂
  · subst hp
    cases asc <;> simp
  · rw [if_neg hp] at h
    cases asc <;> simp_all

theorem lexLe_primary_true [LinearOrder α] [LinearOrder β]
    (p₁ : α) (s₁ : β) (p₂ : α) (s₂ : β)
    (h : lexLe true p₁ s₁ p₂ s₂ = true) : p₁ ≤ p₂ := by
  have := lexLe_primary true p₁ s₁ p₂ s₂ h
  simpa using this

theorem lexLe_primary_false [LinearOrder α] [LinearOrder β]
    (p₁ : α) (s₁ : β) (p₂ : α) (s₂ : β)
    (h : lexLe false p₁ s₁ p₂ s₂ = true) : p₂ ≤ p₁ := by
  have := lexLe_primary false p₁ s₁ p₂ s₂ h
  simpa using this

/-! ### Properties of `rankOf` -/

theorem rankOf_of_mem [DecidableEq α] {order : List α} {x : α} (h : x ∈ order) :
    rankOf order x = order.indexOf x := by
  unfold rankOf; rw [if_pos h]

theorem rankOf_of_not_mem [DecidableEq α] {order : List α} {x : α} (h : x ∉ order) :
    rankOf order x = 999 := by
  unfold rankOf; rw [if_neg h]

theorem rankOf_lt_of_mem [DecidableEq α] {order : List α} {x : α} (h : x ∈ order) :
    rankOf order x < order.length := by
  rw [rankOf_of_mem h]
  exact List.indexOf_lt_length.mpr h

theorem unlisted_after (ord : List String) (a b : String) (hlen : ord.length ≤ 999)
    (h : rankOf ord a ≤ rankOf ord b) (ha : a ∉ ord) : b ∉ ord := by
  intro hb
  have h1 : rankOf ord a = 999 := rankOf_of_not_mem ha
  have h2 : rankOf ord b < ord.length := rankOf_lt_of_mem hb
  omega

/-! ### Dispatch lemmas for `sortDataframe` and `pandasKey` -/

theorem sortDataframe_start (df : List Task) (so : String) (co ao : List String) :
    sortDataframe df "開始日" so co ao =
      insSort (fun a b => lexLe (so = "asc")
        (toDay a.start) a.assignee (toDay b.start) b.assignee) df := by
  unfold sortDataframe; rw [if_pos rfl]

theorem sortDataframe_assignee (df : List Task) (so : String) (co ao : List String) :
    sortDataframe df "担当者" so co ao =
      insSort (fun a b => lexLe (so = "asc")
        (rankOf ao a.assignee) (toDay a.start)
        (rankOf ao b.assignee) (toDay b.start)) df := by
  unfold sortDataframe; rw [if_neg (by decide), if_pos rfl]

theorem sortDataframe_category (df : List Task) (so : String) (co ao : List String) :
    sortDataframe df "カテゴリ" so co ao =
      insSort (fun a b => lexLe (so = "asc")
        (rankOf co a.category) (toDay a.start)
        (rankOf co b.category) (toDay b.start)) df := by
  unfold sortDataframe; rw [if_neg (by decide), if_neg (by decide), if_pos rfl]

theorem sortDataframe_other (df : List Task) (sb so : String) (co ao : List String)
    (h1 : sb ≠ "開始日") (h2 : sb ≠ "担当者") (h3 : sb ≠ "カテゴリ") :
    sortDataframe df sb so co ao = df := by
  unfold sortDataframe; rw [if_neg h1, if_neg h2, if_neg h3]

theorem pandasKey_start (co ao : List String) (t : Task) :
    pandasKey "開始日" co ao t = .byStart (toDay t.start) t.assignee := by
  unfold pandasKey; rw [if_pos rfl]

theorem pandasKey_assignee (co ao : List String) (t : Task) :
    pandasKey "担当者" co ao t = .byRank (rankOf ao t.assignee) (toDay t.start) := by
  unfold pandasKey; rw [if_neg (by decide), if_pos rfl]

theorem pandasKey_category (co ao : List String) (t : Task) :
    pandasKey "カテゴリ" co ao t = .byRank (rankOf co t.category) (toDay t.start) := by
  unfold pandasKey; rw [if_neg (by decide), if_neg (by decide), if_pos rfl]

/-! ### The sort-related claims -/

/-- The order list the categorical sort ranks by. -/
def orderFor (sort_by : String) (category_order assignee_order : List String) :
    List String :=
  if sort_by = "担当者" then assignee_order else category_order

/-- The task field the categorical sort ranks by. -/
def fieldFor (sort_by : String) (t : Task) : String :=
  if sort_by = "担当者" then t.assignee else t.category

/-- C1 (amended): sorting by a categorical key (`"担当者"` or `"カテゴリ"`)
with an order list of at most 999 names: with `ascending` direction the
output is ordered by non-decreasing rank, so every listed name precedes
every unlisted name (rank 999), in the listed order; with `descending`
direction the rank comparison — including the listed-versus-unlisted
placement — is reversed, so every unlisted name precedes every listed
name, and listed names appear in the reverse of the listed order. -/
theorem claim_C1_amended (df : List Task) (sort_by sort_order : String)
    (category_order assignee_order : List String)
    (hsb : sort_by = "担当者" ∨ sort_by = "カテゴリ")
    (hlen : (orderFor sort_by category_order assignee_order).length ≤ 999) :
    (sort_order = "asc" →
      (sortDataframe df sort_by sort_order category_order assignee_order).Pairwise
        (fun a b =>
          rankOf (orderFor sort_by category_order assignee_order) (fieldFor sort_by a) ≤
            rankOf (orderFor sort_by category_order assignee_order) (fieldFor sort_by b) ∧
          (fieldFor sort_by a ∉ orderFor sort_by category_order assignee_order →
            fieldFor sort_by b ∉ orderFor sort_by category_order assignee_order))) ∧
    (sort_order ≠ "asc" →
      (sortDataframe df sort_by sort_order category_order assignee_order).Pairwise
        (fun a b =>
          rankOf (orderFor sort_by category_order assignee_order) (fieldFor sort_by b) ≤
            rankOf (orderFor sort_by category_order assignee_order) (fieldFor sort_by a) ∧
          (fieldFor sort_by b ∉ orderFor sort_by category_order assignee_order →
            fieldFor sort_by a ∉ orderFor sort_by category_order assignee_order))) := by
  rcases hsb with h | h
  · subst h
    have ho : orderFor "担当者" category_order assignee_order = assignee_order := rfl
    have hf : ∀ t : Task, fieldFor "担当者" t = t.assignee := fun t => rfl
    rw [ho] at hlen
    constructor
    · intro hso
      subst hso
      rw [sortDataframe_assignee]
      have hp := pairwise_insSort
        (fun a b => lexLe (decide (("asc" : String) = "asc"))
          (rankOf assignee_order a.assignee) (toDay a.start)
          (rankOf assignee_order b.assignee) (toDay b.start))
        (fun a b hab => lexLe_total _ _ _ _ _ hab)
        (fun a b c h1 h2 => by exact lexLe_trans _ _ _ _ _ _ _ h1 h2) df
      refine List.Pairwise.imp ?_ hp
      intro a b hab
      simp only [hf, ho]
      have hle : lexLe true (rankOf assignee_order a.assignee) (toDay a.start)
          (rankOf assignee_order b.assignee) (toDay b.start) = true := hab
      have hr := lexLe_primary_true _ _ _ _ hle
      exact ⟨hr, fun ha => unlisted_after _ _ _ hlen hr ha⟩
    · intro hso
      have hd : (decide (sort_order = "asc")) = false := decide_eq_false hso
      rw [sortDataframe_assignee]
      simp only [hd]
      have hp := pairwise_insSort
        (fun a b => lexLe false
          (rankOf assignee_order a.assignee) (toDay a.start)
          (rankOf assignee_order b.assignee) (toDay b.start))
        (fun a b hab => lexLe_total _ _ _ _ _ hab)
        (fun a b c h1 h2 => by exact lexLe_trans _ _ _ _ _ _ _ h1 h2) df
      refine List.Pairwise.imp ?_ hp
      intro a b hab
      simp only [hf, ho]
      have hr := lexLe_primary_false _ _ _ _ hab
      exact ⟨hr, fun hb => unlisted_after _ _ _ hlen hr hb⟩
  · subst h
    have ho : orderFor "カテゴリ" category_order assignee_order = category_order := rfl
    have hf : ∀ t : Task, fieldFor "カテゴリ" t = t.category := fun t => rfl
    rw [ho] at hlen
    constructor
    · intro hso
      subst hso
      rw [sortDataframe_category]
      have hp := pairwise_insSort
        (fun a b => lexLe (decide (("asc" : String) = "asc"))
          (rankOf category_order a.category) (toDay a.start)
          (rankOf category_order b.category) (toDay b.start))
        (fun a b hab => lexLe_total _ _ _ _ _ hab)
        (fun a b c h1 h2 => by exact lexLe_trans _ _ _ _ _ _ _ h1 h2) df
      refine List.Pairwise.imp ?_ hp
      intro a b hab
      simp only [hf, ho]
      have hle : lexLe true (rankOf category_order a.category) (toDay a.start)
          (rankOf category_order b.category) (toDay b.start) = true := hab
      have hr := lexLe_primary_true _ _ _ _ hle
      exact ⟨hr, fun ha => unlisted_after _ _ _ hlen hr ha⟩
    · intro hso
      have hd : (decide (sort_order = "asc")) = false := decide_eq_false hso
      rw [sortDataframe_category]
      simp only [hd]
      have hp := pairwise_insSort
        (fun a b => lexLe false
          (rankOf category_order a.category) (toDay a.start)
          (rankOf category_order b.category) (toDay b.start))
        (fun a b hab => lexLe_total _ _ _ _ _ hab)
        (fun a b c h1 h2 => by exact lexLe_trans _ _ _ _ _ _ _ h1 h2) df
      refine List.Pairwise.imp ?_ hp
      intro a b hab
      simp only [hf, ho]
      have hr := lexLe_primary_false _ _ _ _ hab
      exact ⟨hr, fun hb => unlisted_after _ _ _ hlen hr hb⟩

/-- C1 counterexample: with `OrderSpec = ["A"]` for the assignee dimension
and `descending` direction, the task of the unlisted assignee "B" is
placed BEFORE the task of the listed assignee "A": the descending
direction inverts the listed-before-unlisted placement, contrary to the
claim. -/
theorem claim_C1_counterexample :
    sortDataframe
      [⟨"A", "c", "t1", ⟨3, 1, 1⟩, ⟨3, 1, 2⟩, false⟩,
       ⟨"B", "c", "t2", ⟨3, 1, 3⟩, ⟨3, 1, 4⟩, false⟩]
      "担当者" "desc" [] ["A"] =
      [⟨"B", "c", "t2", ⟨3, 1, 3⟩, ⟨3, 1, 4⟩, false⟩,
       ⟨"A", "c", "t1", ⟨3, 1, 1⟩, ⟨3, 1, 2⟩, false⟩] ∧
    ("A" : String) ∈ (["A"] : List String) ∧ ("B" : String) ∉ (["A"] : List String) := by
  decide

/-- Witness for `claim_C1_amended` at a concrete input. -/
theorem claim_C1_amended_witness :
    ((("担当者" : String) = "担当者" ∨ ("担当者" : String) = "カテゴリ") ∧
      (orderFor "担当者" [] []).length ≤ 999) ∧
    ((("desc" : String) = "asc" →
      (sortDataframe [] "担当者" "desc" [] []).Pairwise
        (fun a b =>
          rankOf (orderFor "担当者" [] []) (fieldFor "担当者" a) ≤
            rankOf (orderFor "担当者" [] []) (fieldFor "担当者" b) ∧
          (fieldFor "担当者" a ∉ orderFor "担当者" [] [] →
            fieldFor "担当者" b ∉ orderFor "担当者" [] []))) ∧
     (("desc" : String) ≠ "asc" →
      (sortDataframe [] "担当者" "desc" [] []).Pairwise
        (fun a b =>
          rankOf (orderFor "担当者" [] []) (fieldFor "担当者" b) ≤
            rankOf (orderFor "担当者" [] []) (fieldFor "担当者" a) ∧
          (fieldFor "担当者" b ∉ orderFor "担当者" [] [] →
            fieldFor "担当者" a ∉ orderFor "担当者" [] [])))) :=
  ⟨⟨Or.inl rfl, by decide⟩,
    claim_C1_amended [] "担当者" "desc" [] [] (Or.inl rfl) (by decide)⟩

/-- C4: the sort is stable.  Stability is formalized as: for every full
sort key value `k` (primary plus secondary tiebreak, `pandasKey`),
filtering the sorted output down to the tasks with key `k` yields exactly
the same list — in the same order — as filtering the input.  Hence any
two tasks equal on both the primary and the secondary key appear in the
output in their relative input order.  This holds for every `sort_by`,
direction and order lists. -/
theorem claim_C4_stability (df : List Task) (sort_by sort_order : String)
    (category_order assignee_order : List String) (k : PandasKey) :
    (sortDataframe df sort_by sort_order category_order assignee_order).filter
      (fun t => pandasKey sort_by category_order assignee_order t == k) =
    df.filter (fun t => pandasKey sort_by category_order assignee_order t == k) := by
  by_cases h1 : sort_by = "開始日"
  · subst h1
    rw [sortDataframe_start]
    apply filter_insSort
    intro x y hle hpx
    have hne := lexLe_false_ne _ _ _ _ _
      (show lexLe (decide (sort_order = "asc"))
        (toDay x.start) x.assignee (toDay y.start) y.assignee = false from hle)
    simp only [pandasKey_start, beq_iff_eq] at hpx
    subst hpx
    simp only [pandasKey_start, beq_eq_false_iff_ne]
    intro he
    simp only [PandasKey.byStart.injEq] at he
    exact hne ⟨he.1.symm, he.2.symm⟩
  · by_cases h2 : sort_by = "担当者"
    · subst h2
      rw [sortDataframe_assignee]
      apply filter_insSort
      intro x y hle hpx
      have hne := lexLe_false_ne _ _ _ _ _
        (show lexLe (decide (sort_order = "asc"))
          (rankOf assignee_order x.assignee) (toDay x.start)
          (rankOf assignee_order y.assignee) (toDay y.start) = false from hle)
      simp only [pandasKey_assignee, beq_iff_eq] at hpx
      subst hpx
      simp only [pandasKey_assignee, beq_eq_false_iff_ne]
      intro he
      simp only [PandasKey.byRank.injEq] at he
      exact hne ⟨he.1.symm, he.2.symm⟩
    · by_cases h3 : sort_by = "カテゴリ"
      · subst h3
        rw [sortDataframe_category]
        apply filter_insSort
        intro x y hle hpx
        have hne := lexLe_false_ne _ _ _ _ _
          (show lexLe (decide (sort_order = "asc"))
            (rankOf category_order x.category) (toDay x.start)
            (rankOf category_order y.category) (toDay y.start) = false from hle)
        simp only [pandasKey_category, beq_iff_eq] at hpx
        subst hpx
        simp only [pandasKey_category, beq_eq_false_iff_ne]
        intro he
        simp only [PandasKey.byRank.injEq] at he
        exact hne ⟨he.1.symm, he.2.symm⟩
      · rw [sortDataframe_other df sort_by sort_order category_order assignee_order h1 h2 h3]

/-- C10: an unrecognized `sort_by` value matches none of the three
branches of `sort_dataframe`; the function raises no error and returns
the (copied) task collection in its original order, for any direction and
order lists. -/
theorem claim_C10_unknown_sort_key (df : List Task) (sort_by sort_order : String)
    (category_order assignee_order : List String)
    (h1 : sort_by ≠ "開始日") (h2 : sort_by ≠ "担当者") (h3 : sort_by ≠ "カテゴリ") :
    sortDataframe df sort_by sort_order category_order assignee_order = df :=
  sortDataframe_other df sort_by sort_order category_order assignee_order h1 h2 h3

/-- Witness for `claim_C10_unknown_sort_key` at a concrete input. -/
theorem claim_C10_unknown_sort_key_witness :
    (("duration" : String) ≠ "開始日" ∧ ("duration" : String) ≠ "担当者" ∧
      ("duration" : String) ≠ "カテゴリ") ∧
    sortDataframe [⟨"A", "c", "t", ⟨3, 1, 1⟩, ⟨3, 1, 2⟩, false⟩] "duration" "desc" [] [] =
      [⟨"A", "c", "t", ⟨3, 1, 1⟩, ⟨3, 1, 2⟩, false⟩] :=
  ⟨⟨by decide, by decide, by decide⟩,
    claim_C10_unknown_sort_key _ "duration" "desc" [] [] (by decide) (by decide) (by decide)⟩

/-- The cell-occupancy test of `create_excel_gantt_chart` (src/app.py
lines 479-480): `task_start <= period_end and task_end >= period_start`,
a comparison of pandas timestamps, i.e. of day numbers. -/
def overlaps (task_start task_end period_start period_end : Nat) : Bool :=
  task_start ≤ period_end && task_end ≥ period_start

/-- C3: the cell is occupied iff `start <= bucket_end AND end >=
bucket_start`; in particular a task ending exactly on `bucket_start` is
occupied, and a task starting exactly one day after `bucket_end` is not. -/
theorem claim_C3_overlap (task_start task_end period_start period_end : Nat)
    (hT : task_start ≤ task_end) (hP : period_start ≤ period_end) :
    (overlaps task_start task_end period_start period_end = true ↔
      (task_start ≤ period_end ∧ task_end ≥ period_start)) ∧
    (task_end = period_start →
      overlaps task_start task_end period_start period_end = true) ∧
    (task_start = period_end + 1 →
      overlaps task_start task_end period_start period_end = false) := by
  unfold overlaps
  refine ⟨by simp, fun h => ?_, fun h => ?_⟩
  · simp only [Bool.and_eq_true, decide_eq_true_eq, ge_iff_le]
    omega
  · have hn : ¬(task_start ≤ period_end) := by omega
    simp [hn]

/-- Witness for `claim_C3_overlap` at a concrete input. -/
theorem claim_C3_overlap_witness :
    ((1 : Nat) ≤ 2 ∧ (2 : Nat) ≤ 3) ∧
    ((overlaps 1 2 2 3 = true ↔ ((1 : Nat) ≤ 3 ∧ (2 : Nat) ≥ 2)) ∧
     ((2 : Nat) = 2 → overlaps 1 2 2 3 = true) ∧
     ((1 : Nat) = 3 + 1 → overlaps 1 2 2 3 = false)) :=
  ⟨⟨by decide, by decide⟩, claim_C3_overlap 1 2 2 3 (by decide) (by decide)⟩

/-- C8 (amended): the comparator returns the index of `x` in `order` when
present; otherwise it returns the FIXED sentinel 999 (not a value derived
from `len(order)`).  Whenever the order list has at most 999 names the
sentinel is strictly greater than `len(order) - 1` and every unlisted
name ranks strictly after every listed name; for longer order lists this
fails (see the counterexample). -/
theorem claim_C8_rank_amended (order : List String) (x : String)
    (hlen : order.length ≤ 999) :
    (x ∈ order → rankOf order x = order.indexOf x) ∧
    (x ∉ order →
      rankOf order x = 999 ∧
      order.length - 1 < rankOf order x ∧
      ∀ y ∈ order, rankOf order y < rankOf order x) := by
  refine ⟨fun h => rankOf_of_mem h, fun h => ?_⟩
  have h999 : rankOf order x = 999 := rankOf_of_not_mem h
  refine ⟨h999, by omega, fun y hy => ?_⟩
  have := rankOf_lt_of_mem hy
  omega

/-- Witness for `claim_C8_rank_amended` at a concrete input. -/
theorem claim_C8_rank_amended_witness :
    ((["甲", "乙"] : List String).length ≤ 999) ∧
    (("丙" ∈ (["甲", "乙"] : List String) →
        rankOf ["甲", "乙"] "丙" = (["甲", "乙"] : List String).indexOf "丙") ∧
     ("丙" ∉ (["甲", "乙"] : List String) →
        rankOf ["甲", "乙"] "丙" = 999 ∧
        (["甲", "乙"] : List String).length - 1 < rankOf ["甲", "乙"] "丙" ∧
        ∀ y ∈ (["甲", "乙"] : List String),
          rankOf ["甲", "乙"] y < rankOf ["甲", "乙"] "丙")) :=
  ⟨by decide, claim_C8_rank_amended ["甲", "乙"] "丙" (by decide)⟩

set_option maxRecDepth 10000 in
/-- C8 counterexample: for an order list of 1000 distinct names the
sentinel 999 is NOT strictly greater than `len(order) - 1 = 999`, and the
unlisted name "z" receives the same rank as the listed name "999", so an
unlisted name fails to rank after every listed name. -/
theorem claim_C8_counterexample :
    rankOf ((List.range 1000).map (fun n => toString n)) "z" = 999 ∧
    ¬(((List.range 1000).map (fun n => toString n)).length - 1 <
        rankOf ((List.range 1000).map (fun n => toString n)) "z") ∧
    ("z" ∉ (List.range 1000).map (fun n => toString n)) ∧
    ("999" ∈ (List.range 1000).map (fun n => toString n)) ∧
    rankOf ((List.range 1000).map (fun n => toString n)) "999" =
      rankOf ((List.range 1000).map (fun n => toString n)) "z" := by
  decide

/-- C2: for every non-empty date range (`range_start ≤ range_end`, valid
proleptic-Gregorian dates, year ≥ 1) and every granularity in
{day, week, month}, the generated bucket sequence is non-empty,
contiguous (each bucket starts exactly one day after the previous bucket
ends), non-overlapping, strictly increasing in start date, and its union
covers every day of `[range_start, range_end]` — including across
December-to-January rollover and leap-year month lengths. -/
theorem claim_C2_bucket_invariants (granularity : String) (s e : Date)
    (hg : granularity = "day" ∨ granularity = "week" ∨ granularity = "month")
    (hs : s.Valid) (he : e.Valid) (hy : 1 ≤ s.y) (hse : toDay s ≤ toDay e) :
    GoodBuckets (bucketsOf granularity s e) (toDay s) (toDay e) := by
  rcases hg with h | h | h
  · subst h; exact goodBuckets_day s e hs hse
  · subst h; exact goodBuckets_week s e hs hy hse
  · subst h; exact goodBuckets_month s e hs he hy hse

/-- Witness for `claim_C2_bucket_invariants`: month buckets across a
December-to-January rollover into a leap year (year 4 is leap). -/
theorem claim_C2_bucket_invariants_witness :
    ((("month" : String) = "day" ∨ ("month" : String) = "week" ∨
        ("month" : String) = "month") ∧
      (⟨3, 12, 20⟩ : Date).Valid ∧ (⟨4, 3, 5⟩ : Date).Valid ∧
      1 ≤ (⟨3, 12, 20⟩ : Date).y ∧ toDay ⟨3, 12, 20⟩ ≤ toDay ⟨4, 3, 5⟩) ∧
    GoodBuckets (bucketsOf "month" ⟨3, 12, 20⟩ ⟨4, 3, 5⟩)
      (toDay ⟨3, 12, 20⟩) (toDay ⟨4, 3, 5⟩) :=
  ⟨⟨Or.inr (Or.inr rfl), by decide, by decide, by decide, by decide⟩,
    claim_C2_bucket_invariants "month" ⟨3, 12, 20⟩ ⟨4, 3, 5⟩ (Or.inr (Or.inr rfl))
      (by decide) (by decide) (by decide) (by decide)⟩

/-- The weekday embedding matches the real calendar: 2026-01-05 is a
Monday (weekday 0) and 2026-01-01 a Thursday (weekday 3); 2028 is a leap
year. -/
theorem pyWeekday_real_calendar :
    pyWeekday ⟨2026, 1, 5⟩ = 0 ∧ pyWeekday ⟨2026, 1, 1⟩ = 3 ∧ isLeap 2028 = true := by
  decide

/-! ## Excel workbook assembly

`create_excel_gantt_chart` is embedded as the cell contents (values and
solid-fill colors) of the produced workbook; purely visual styling
attributes (fonts, borders, widths, freeze panes) carry no claim-relevant
information and are not modeled. -/

/-- `CATEGORY_COLORS` (src/app.py lines 35-41), as an insertion-ordered
association list (Python dicts preserve insertion order). -/
def CATEGORY_COLORS : List (String × String) :=
  [("プラットフォーム実装", "#3498db"), ("UX動線", "#9b59b6"),
   ("商品コンテンツ", "#e74c3c"), ("集客販促", "#f39c12"),
   ("データ活用", "#2ecc71")]

/-- `ASSIGNEE_COLORS` (src/app.py lines 53-56). -/
def ASSIGNEE_COLORS : List (String × String) :=
  [("松永", "#2980b9"), ("高山", "#c0392b")]

/-- Value of one hexadecimal digit character. -/
def hexDigit (c : Char) : Nat :=
  if '0' ≤ c ∧ c ≤ '9' then c.toNat - 48
  else if 'a' ≤ c ∧ c ≤ 'f' then c.toNat - 87
  else if 'A' ≤ c ∧ c ≤ 'F' then c.toNat - 55
  else 0

/-- `hex_to_rgb` (src/app.py lines 290-293): strip the leading `#`, read
three two-digit hex bytes. -/
def hex_to_rgb (s : String) : Nat × Nat × Nat :=
  let cs := s.toList.dropWhile (fun c => c = '#')
  (16 * hexDigit (cs.getD 0 '0') + hexDigit (cs.getD 1 '0'),
   16 * hexDigit (cs.getD 2 '0') + hexDigit (cs.getD 3 '0'),
   16 * hexDigit (cs.getD 4 '0') + hexDigit (cs.getD 5 '0'))

/-- One uppercase hexadecimal digit character. -/
def hexChar (n : Nat) : Char :=
  if n < 10 then Char.ofNat (48 + n) else Char.ofNat (55 + n)

/-- `f"{n:02X}"`. -/
def hexByte (n : Nat) : String := String.mk [hexChar (n / 16), hexChar (n % 16)]

/-- The openpyxl solid-fill color string `f"{r:02X}{g:02X}{b:02X}"`
built from a `#rrggbb` entry (src/app.py lines 448-452 and 496-501). -/
def fillOf (hex : String) : String :=
  hexByte (hex_to_rgb hex).1 ++ hexByte (hex_to_rgb hex).2.1 ++
    hexByte (hex_to_rgb hex).2.2

/-- Zero-padded two-digit decimal (`%m`, `%d` of `strftime`). -/
def fmt2 (n : Nat) : String := if n < 10 then "0" ++ toString n else toString n

/-- `%Y` (zero-padded four-digit year, as in C `strftime`). -/
def fmt4 (n : Nat) : String :=
  if n < 10 then "000" ++ toString n
  else if n < 100 then "00" ++ toString n
  else if n < 1000 then "0" ++ toString n
  else toString n

/-- `%a` weekday abbreviation in the C locale, from the Python weekday
number (Monday = 0). -/
def weekdayAbbrev (w : Nat) : String :=
  if w = 0 then "Mon" else if w = 1 then "Tue" else if w = 2 then "Wed"
  else if w = 3 then "Thu" else if w = 4 then "Fri" else if w = 5 then "Sat"
  else "Sun"

/-- `d.strftime("%m/%d")`. -/
def fmtMMDD (d : Date) : String := fmt2 d.m ++ "/" ++ fmt2 d.d

/-- `d.strftime("%m/%d\n(%a)")`. -/
def fmtMMDDa (d : Date) : String :=
  fmtMMDD d ++ "\n(" ++ weekdayAbbrev (pyWeekday d) ++ ")"

/-- `d.strftime("%Y/%m")`. -/
def fmtYYYYMM (d : Date) : String := fmt4 d.y ++ "/" ++ fmt2 d.m

/-- `d.strftime("%Y/%m/%d")`. -/
def fmtYMD (d : Date) : String := fmt4 d.y ++ "/" ++ fmt2 d.m ++ "/" ++ fmt2 d.d

/-- The `header_format` chosen per granularity (src/app.py lines 334-349):
day → `"%m/%d\n(%a)"`, week → `"%m/%d"`, month → `"%Y/%m"`. -/
def headerFormat (granularity : String) (d : Date) : String :=
  if granularity = "day" then fmtMMDDa d
  else if granularity = "week" then fmtMMDD d
  else fmtYYYYMM d

/-- A written cell value. -/
inductive CellVal
  | s (v : String)
  | n (v : Nat)
deriving DecidableEq, Repr

/-- One modeled worksheet cell: position, optional value, optional
solid-fill color string. -/
structure Cell where
  row : Nat
  col : Nat
  value : Option CellVal
  fill : Option String
deriving DecidableEq, Repr

/-- A modeled worksheet. -/
structure Sheet where
  title : String
  cells : List Cell
deriving DecidableEq, Repr

/-- A modeled workbook. -/
structure Workbook where
  sheets : List Sheet
deriving DecidableEq, Repr

/-- `df["開始日"].min()` over a non-empty dataframe (chronological
minimum, first occurrence kept on ties). -/
def minStartDate : List Task → Date
  | [] => ⟨0, 1, 1⟩
  | t :: ts =>
    ts.foldl (fun acc u => if toDay u.start < toDay acc then u.start else acc) t.start

/-- `df["終了日"].max()` over a non-empty dataframe. -/
def maxEndDate : List Task → Date
  | [] => ⟨0, 1, 1⟩
  | t :: ts =>
    ts.foldl (fun acc u => if toDay acc < toDay u.finish then u.finish else acc) t.finish

/-- The color map chosen by `color_by` (src/app.py lines 327 and 494). -/
def colorMapOf (color_by : String) : List (String × String) :=
  if color_by = "カテゴリ" then CATEGORY_COLORS else ASSIGNEE_COLORS

/-- The color-by field of a task (`task[color_by]`, src/app.py line 445). -/
def colorKeyOf (color_by : String) (t : Task) : String :=
  if color_by = "カテゴリ" then t.category else t.assignee

/-- The four fixed header cells (row 1, columns 1-4; src/app.py lines
377-399). -/
def fixedHeaderCells : List Cell :=
  [⟨1, 1, some (.s "No."), none⟩, ⟨1, 2, some (.s "担当者"), none⟩,
   ⟨1, 3, some (.s "カテゴリ"), none⟩, ⟨1, 4, some (.s "タスク"), none⟩]

/-- Row `row_idx` of the grid sheet for one task (src/app.py lines
420-480): No., assignee, category, title (milestones prefixed `"★ "`),
then one cell per date column, filled with the task's color (defaulting
to `#999999` for unmapped keys) exactly when the task interval overlaps
the column's period. -/
def taskRowCells (granularity color_by : String) (ds : List Date)
    (row_idx : Nat) (t : Task) : List Cell :=
  [⟨row_idx, 1, some (.n (row_idx - 1)), none⟩,
   ⟨row_idx, 2, some (.s t.assignee), none⟩,
   ⟨row_idx, 3, some (.s t.category), none⟩,
   ⟨row_idx, 4, some (.s (if t.is_milestone then "★ " ++ t.title else t.title)), none⟩] ++
  ds.enum.map (fun p =>
    ⟨row_idx, 5 + p.1, none,
      if overlaps (toDay t.start) (toDay t.finish)
          (toDay (periodOf granularity p.2).1) (toDay (periodOf granularity p.2).2)
      then some (fillOf (((colorMapOf color_by).lookup (colorKeyOf color_by t)).getD
        "#999999"))
      else none⟩)

/-- The grid sheet (sheet 1) for a non-empty dataframe: fixed headers,
one date-header cell per bucket at row 1 columns 5.., and the task rows
numbered from 2 (src/app.py lines 322-487). -/
def gridSheet (df : List Task) (granularity color_by : String) : Sheet :=
  { title := "ガントチャート"
    cells := fixedHeaderCells ++
      (dateList granularity (minStartDate df) (maxEndDate df)).enum.map
        (fun p => ⟨1, 5 + p.1, some (.s (headerFormat granularity p.2)), none⟩) ++
      (df.enum.map (fun q =>
        taskRowCells granularity color_by
          (dateList granularity (minStartDate df) (maxEndDate df)) (2 + q.1) q.2)).flatten }

/-- The legend/summary sheet (src/app.py lines 489-516): a title, one
swatch (filled cell, column 1) and one label (column 2) per entry of the
active color map at rows 3.., then the summary block at
`len(items) + 5`..: total task count, date span, milestone count. -/
def legendSheet (df : List Task) (color_by : String) (s e : Date) : Sheet :=
  { title := "凡例"
    cells := ⟨1, 1, some (.s "【色の凡例】"), none⟩ ::
      ((colorMapOf color_by).enum.map
        (fun p => (⟨3 + p.1, 1, none, some (fillOf p.2.2)⟩ : Cell))) ++
      ((colorMapOf color_by).enum.map
        (fun p => (⟨3 + p.1, 2, some (.s p.2.1), none⟩ : Cell))) ++
      [⟨(colorMapOf color_by).length + 5, 1, some (.s "【サマリー】"), none⟩,
       ⟨(colorMapOf color_by).length + 6, 1, some (.s "総タスク数:"), none⟩,
       ⟨(colorMapOf color_by).length + 6, 2, some (.n df.length), none⟩,
       ⟨(colorMapOf color_by).length + 7, 1, some (.s "期間:"), none⟩,
       ⟨(colorMapOf color_by).length + 7, 2,
         some (.s (fmtYMD s ++ " 〜 " ++ fmtYMD e)), none⟩,
       ⟨(colorMapOf color_by).length + 8, 1, some (.s "マイルストーン数:"), none⟩,
       ⟨(colorMapOf color_by).length + 8, 2,
         some (.n (df.countP (fun t => t.is_milestone))), none⟩] }

/-- `create_excel_gantt_chart` (src/app.py lines 296-521), as the cell
contents of the produced workbook: an empty dataframe yields a single
sheet titled "ガントチャート" with the no-data marker at A1 (lines
312-320); otherwise the grid sheet plus the legend/summary sheet. -/
def create_excel_gantt_chart (df : List Task) (granularity color_by : String) :
    Workbook :=
  if df.isEmpty then
    ⟨[⟨"ガントチャート", [⟨1, 1, some (.s "データがありません"), none⟩]⟩]⟩
  else
    ⟨[gridSheet df granularity color_by,
      legendSheet df color_by (minStartDate df) (maxEndDate df)]⟩

/-! ### Workbook claims -/

/-- C5 counterexample: for the empty task list the export returns a
SINGLE-sheet workbook (the grid sheet with the no-data marker at A1),
not the claimed two-sheet artifact. -/
theorem claim_C5_counterexample :
    (create_excel_gantt_chart [] "week" "カテゴリ").sheets.length = 1 ∧
    (create_excel_gantt_chart [] "week" "カテゴリ").sheets.length ≠ 2 ∧
    (create_excel_gantt_chart [] "week" "カテゴリ").sheets =
      [⟨"ガントチャート", [⟨1, 1, some (.s "データがありません"), none⟩]⟩] := by
  decide

/-- C5 (amended): for an empty filtered task list the export returns a
valid SINGLE-sheet workbook whose only sheet is titled "ガントチャート"
and carries the "no data" marker at cell A1; the two-sheet (grid +
legend) artifact is produced exactly for non-empty inputs.  Callers never
receive a zero-sheet artifact. -/
theorem claim_C5_amended (df : List Task) (granularity color_by : String) :
    (df = [] →
      (create_excel_gantt_chart df granularity color_by).sheets =
        [⟨"ガントチャート", [⟨1, 1, some (.s "データがありません"), none⟩]⟩]) ∧
    (df ≠ [] →
      (create_excel_gantt_chart df granularity color_by).sheets.length = 2 ∧
      (create_excel_gantt_chart df granularity color_by).sheets.map Sheet.title =
        ["ガントチャート", "凡例"]) ∧
    (create_excel_gantt_chart df granularity color_by).sheets ≠ [] := by
  rcases df with _ | ⟨t, ts⟩
  · exact ⟨fun _ => rfl, fun hc => absurd rfl hc, fun hc => List.noConfusion hc⟩
  · refine ⟨fun hc => absurd hc (List.cons_ne_nil t ts), fun _ => ⟨rfl, rfl⟩,
      fun hc => List.noConfusion hc⟩

/-- C6 (amended): an inverted range raises no error: the bucket
generator is total, and for `range_start > range_end` the day-granularity
anchor list (`pd.date_range(start, end, freq="D")` with `start > end`) is
empty; no `InvalidRange` (or any other) error exists in the code. -/
theorem claim_C6_amended (s e : Date) (h : toDay e < toDay s) :
    dateList "day" s e = [] ∧ bucketsOf "day" s e = [] := by
  have h0 : toDay e + 1 - toDay s = 0 := by omega
  have hd : dateList "day" s e = [] := by
    rw [dateList_day]
    unfold dateRangeD
    rw [h0]
    rfl
  exact ⟨hd, by unfold bucketsOf; rw [hd]; rfl⟩

/-- Witness for `claim_C6_amended` at a concrete input. -/
theorem claim_C6_amended_witness :
    toDay ⟨3, 1, 5⟩ < toDay ⟨3, 1, 10⟩ ∧
    (dateList "day" ⟨3, 1, 10⟩ ⟨3, 1, 5⟩ = [] ∧
      bucketsOf "day" ⟨3, 1, 10⟩ ⟨3, 1, 5⟩ = []) :=
  ⟨by decide, claim_C6_amended ⟨3, 1, 10⟩ ⟨3, 1, 5⟩ (by decide)⟩

/-- C6 counterexample: at a concrete inverted range the generator
returns the ordinary value `[]` — no error is raised — and the export
call still returns a complete two-sheet workbook (its grid sheet simply
has no date columns): no failure is surfaced to the caller. -/
theorem claim_C6_counterexample :
    dateList "day" ⟨3, 1, 10⟩ ⟨3, 1, 5⟩ = [] ∧
    toDay ⟨3, 1, 5⟩ < toDay ⟨3, 1, 10⟩ ∧
    (create_excel_gantt_chart [⟨"松永", "c", "t", ⟨3, 1, 10⟩, ⟨3, 1, 5⟩, false⟩]
        "day" "カテゴリ").sheets.length = 2 := by
  decide

/-! ### C7: header-label formats -/

theorem foldl_min_start (ts : List Task) : ∀ a : Date,
    ts.foldl (fun acc u => if toDay u.start < toDay acc then u.start else acc) a = a ∨
    ∃ u ∈ ts,
      ts.foldl (fun acc u => if toDay u.start < toDay acc then u.start else acc) a =
        u.start := by
  induction ts with
  | nil => intro a; exact Or.inl rfl
  | cons v vs ih =>
    intro a
    rw [List.foldl_cons]
    rcases ih (if toDay v.start < toDay a then v.start else a) with h | ⟨u, hu, he⟩
    · by_cases hv : toDay v.start < toDay a
      · right
        refine ⟨v, List.mem_cons_self v vs, ?_⟩
        rw [h, if_pos hv]
      · left
        rw [h, if_neg hv]
    · right
      exact ⟨u, List.mem_cons_of_mem v hu, he⟩

theorem minStartDate_valid (df : List Task) (hdf : df ≠ [])
    (hv : ∀ t ∈ df, t.start.Valid ∧ 1 ≤ t.start.y) :
    (minStartDate df).Valid ∧ 1 ≤ (minStartDate df).y := by
  rcases df with _ | ⟨t, ts⟩
  · exact absurd rfl hdf
  · have hm : minStartDate (t :: ts) =
        ts.foldl (fun acc u => if toDay u.start < toDay acc then u.start else acc)
          t.start := rfl
    rcases foldl_min_start ts t.start with h | ⟨u, hu, he⟩
    · rw [hm, h]
      exact hv t (List.mem_cons_self t ts)
    · rw [hm, he]
      exact hv u (List.mem_cons_of_mem t hu)

theorem mem_map_enum {α β : Type} (f : Nat × α → β) (l : List α) (i : Nat)
    (h : i < l.length) : f (i, l.get ⟨i, h⟩) ∈ l.enum.map f := by
  apply List.mem_map.mpr
  refine ⟨(i, l.get ⟨i, h⟩), ?_, rfl⟩
  rw [List.mk_mem_enum_iff_getElem?]
  simp [List.getElem?_eq_getElem h, List.get_eq_getElem]

theorem dateList_week_monday (s e : Date) (hs : s.Valid) (hy : 1 ≤ s.y) :
    ∀ i (h : i < (dateList "week" s e).length),
      pyWeekday ((dateList "week" s e).get ⟨i, h⟩) = 0 := by
  have h367 := toDay_ge_367 s hs hy
  have hw : pyWeekday s < 7 := Nat.mod_lt _ (by omega)
  obtain ⟨hMd, hMv⟩ := toDay_subDays s hs (pyWeekday s) (by omega)
  have hps : pyWeekday s = (toDay s + 4) % 7 := rfl
  have hwM : pyWeekday (subDays s (pyWeekday s)) = 0 := by
    show (toDay (subDays s (pyWeekday s)) + 4) % 7 = 0
    rw [hMd]
    omega
  have hzero : (7 - pyWeekday (subDays s (pyWeekday s))) % 7 = 0 := by rw [hwM]
  have hadd0 : ∀ z : Date, addDays z 0 = z := fun z => rfl
  have hL : dateList "week" s e =
      (List.range ((toDay e + 1 - toDay (subDays s (pyWeekday s)) + 6) / 7)).map
        (fun i => addDays (subDays s (pyWeekday s)) (7 * i)) := by
    rw [dateList_week]
    unfold dateRangeWMon
    simp only [hzero, hadd0]
  intro i h
  revert h
  rw [hL]
  intro h
  rw [List.get_eq_getElem]
  simp only [List.getElem_map, List.getElem_range]
  show (toDay (addDays (subDays s (pyWeekday s)) (7 * i)) + 4) % 7 = 0
  rw [(toDay_addDays _ hMv (7 * i)).1, hMd]
  omega

theorem dateList_month_day_one (s e : Date) :
    ∀ i (h : i < (dateList "month" s e).length),
      ((dateList "month" s e).get ⟨i, h⟩).d = 1 := by
  intro i h
  revert h
  rw [dateList_month, dateRangeMS_firstOfMonth]
  intro h
  rw [List.get_eq_getElem]
  simp only [List.getElem_map, List.getElem_range]
  rfl

/-- C7 (amended): the export's header row holds, at row 1 column `5 + i`,
the label of the i-th bucket formatted per granularity by
`header_format`: day → `MM/DD` followed by a NEWLINE AND THE
PARENTHESIZED WEEKDAY ABBREVIATION (the code uses `"%m/%d\n(%a)"`, not
plain `MM/DD`), week → `MM/DD` of the bucket's Monday (every generated
week anchor is a Monday), month → `YYYY/MM` (every anchor is the first
of its month). -/
theorem claim_C7_header_amended (df : List Task) (granularity color_by : String)
    (hdf : df ≠ []) (hvalid : ∀ t ∈ df, t.start.Valid ∧ 1 ≤ t.start.y) :
    ∀ i (h : i < (dateList granularity (minStartDate df) (maxEndDate df)).length),
      (⟨1, 5 + i, some (.s (headerFormat granularity
          ((dateList granularity (minStartDate df) (maxEndDate df)).get ⟨i, h⟩))),
        none⟩ : Cell) ∈ (gridSheet df granularity color_by).cells ∧
      (granularity = "week" →
        pyWeekday
          ((dateList granularity (minStartDate df) (maxEndDate df)).get ⟨i, h⟩) = 0) ∧
      (granularity = "month" →
        ((dateList granularity (minStartDate df) (maxEndDate df)).get ⟨i, h⟩).d = 1) := by
  intro i h
  refine ⟨?_, ?_, ?_⟩
  · unfold gridSheet
    simp only
    refine List.mem_append.mpr (Or.inl (List.mem_append.mpr (Or.inr ?_)))
    exact mem_map_enum
      (fun p => (⟨1, 5 + p.1, some (.s (headerFormat granularity p.2)), none⟩ : Cell))
      _ i h
  · intro hg
    subst hg
    obtain ⟨hv1, hv2⟩ := minStartDate_valid df hdf hvalid
    exact dateList_week_monday (minStartDate df) (maxEndDate df) hv1 hv2 i h
  · intro hg
    subst hg
    exact dateList_month_day_one (minStartDate df) (maxEndDate df) i h

/-- C7 counterexample: a day-granularity header label is NOT formatted
exactly as `MM/DD`: it carries a newline and the weekday abbreviation. -/
theorem claim_C7_counterexample :
    headerFormat "day" ⟨2026, 1, 5⟩ = "01/05\n(Mon)" ∧
    ("01/05\n(Mon)" : String) ≠ "01/05" ∧
    fmtMMDD ⟨2026, 1, 5⟩ = "01/05" := by
  decide

/-- Witness for `claim_C7_header_amended` at a concrete input. -/
theorem claim_C7_header_amended_witness :
    (([⟨"松永", "c", "t", ⟨3, 1, 8⟩, ⟨3, 1, 9⟩, false⟩] : List Task) ≠ [] ∧
      ∀ t ∈ ([⟨"松永", "c", "t", ⟨3, 1, 8⟩, ⟨3, 1, 9⟩, false⟩] : List Task),
        t.start.Valid ∧ 1 ≤ t.start.y) ∧
    (∀ i (h : i < (dateList "week"
        (minStartDate [⟨"松永", "c", "t", ⟨3, 1, 8⟩, ⟨3, 1, 9⟩, false⟩])
        (maxEndDate [⟨"松永", "c", "t", ⟨3, 1, 8⟩, ⟨3, 1, 9⟩, false⟩])).length),
      (⟨1, 5 + i, some (.s (headerFormat "week"
          ((dateList "week"
            (minStartDate [⟨"松永", "c", "t", ⟨3, 1, 8⟩, ⟨3, 1, 9⟩, false⟩])
            (maxEndDate [⟨"松永", "c", "t", ⟨3, 1, 8⟩, ⟨3, 1, 9⟩, false⟩])).get ⟨i, h⟩))),
        none⟩ : Cell) ∈
        (gridSheet [⟨"松永", "c", "t", ⟨3, 1, 8⟩, ⟨3, 1, 9⟩, false⟩] "week" "カテゴリ").cells ∧
      (("week" : String) = "week" →
        pyWeekday ((dateList "week"
          (minStartDate [⟨"松永", "c", "t", ⟨3, 1, 8⟩, ⟨3, 1, 9⟩, false⟩])
          (maxEndDate [⟨"松永", "c", "t", ⟨3, 1, 8⟩, ⟨3, 1, 9⟩, false⟩])).get ⟨i, h⟩) = 0) ∧
      (("week" : String) = "month" →
        ((dateList "week"
          (minStartDate [⟨"松永", "c", "t", ⟨3, 1, 8⟩, ⟨3, 1, 9⟩, false⟩])
          (maxEndDate [⟨"松永", "c", "t", ⟨3, 1, 8⟩, ⟨3, 1, 9⟩, false⟩])).get ⟨i, h⟩).d = 1)) :=
  ⟨⟨by decide, by decide⟩,
    claim_C7_header_amended [⟨"松永", "c", "t", ⟨3, 1, 8⟩, ⟨3, 1, 9⟩, false⟩]
      "week" "カテゴリ" (by decide) (by decide)⟩

/-! ### C9: legend/summary sheet contents -/

set_option maxHeartbeats 1600000 in
/-- C9 (amended): the legend sheet contains one color swatch (filled
cell at row `3 + i` column 1) plus one label (column 2) per entry of the
active color map, followed by a summary block of EXACTLY three
aggregates — total task count, date span, milestone count.  No counts
grouped by assignee, category or quarter are written to the exported
legend sheet (those appear only in the interactive dashboard's summary
cards); in particular the sheet contains exactly two numeric cells. -/
theorem claim_C9_legend_amended (df : List Task) (color_by : String) (s e : Date) :
    (∀ i (h : i < (colorMapOf color_by).length),
      (⟨3 + i, 1, none,
          some (fillOf ((colorMapOf color_by).get ⟨i, h⟩).2)⟩ : Cell) ∈
        (legendSheet df color_by s e).cells ∧
      (⟨3 + i, 2, some (.s ((colorMapOf color_by).get ⟨i, h⟩).1), none⟩ : Cell) ∈
        (legendSheet df color_by s e).cells) ∧
    (⟨(colorMapOf color_by).length + 6, 2, some (.n df.length), none⟩ : Cell) ∈
      (legendSheet df color_by s e).cells ∧
    (⟨(colorMapOf color_by).length + 7, 2,
        some (.s (fmtYMD s ++ " 〜 " ++ fmtYMD e)), none⟩ : Cell) ∈
      (legendSheet df color_by s e).cells ∧
    (⟨(colorMapOf color_by).length + 8, 2,
        some (.n (df.countP (fun t => t.is_milestone))), none⟩ : Cell) ∈
      (legendSheet df color_by s e).cells ∧
    ((legendSheet df color_by s e).cells.countP
        (fun c => match c.value with | some (.n _) => true | _ => false)) = 2 := by
  refine ⟨?_, ?_, ?_, ?_, ?_⟩
  · intro i h
    constructor
    · unfold legendSheet
      simp only
      refine List.mem_append.mpr (Or.inl (List.mem_append.mpr (Or.inl
        (List.mem_cons_of_mem _ ?_))))
      apply List.mem_map.mpr
      refine ⟨(i, (colorMapOf color_by).get ⟨i, h⟩), ?_, rfl⟩
      rw [List.mk_mem_enum_iff_getElem?]
      simp [List.getElem?_eq_getElem h, List.get_eq_getElem]
    · unfold legendSheet
      simp only
      refine List.mem_append.mpr (Or.inl (List.mem_append.mpr (Or.inr ?_)))
      apply List.mem_map.mpr
      refine ⟨(i, (colorMapOf color_by).get ⟨i, h⟩), ?_, rfl⟩
      rw [List.mk_mem_enum_iff_getElem?]
      simp [List.getElem?_eq_getElem h, List.get_eq_getElem]
  · unfold legendSheet
    simp only
    refine List.mem_append.mpr (Or.inr ?_)
    simp
  · unfold legendSheet
    simp only
    refine List.mem_append.mpr (Or.inr ?_)
    simp
  · unfold legendSheet
    simp only
    refine List.mem_append.mpr (Or.inr ?_)
    simp
  · unfold legendSheet
    simp only [List.countP_append, List.countP_cons]
    rw [List.countP_map, List.countP_map]
    have e1 : (colorMapOf color_by).enum.countP
        ((fun c : Cell => match c.value with | some (.n _) => true | _ => false) ∘
          (fun p => (⟨3 + p.1, 1, none, some (fillOf p.2.2)⟩ : Cell))) = 0 := by
      apply List.countP_eq_zero.mpr
      intro p _
      exact fun hc => Bool.false_ne_true hc
    have e2 : (colorMapOf color_by).enum.countP
        ((fun c : Cell => match c.value with | some (.n _) => true | _ => false) ∘
          (fun p => (⟨3 + p.1, 2, some (.s p.2.1), none⟩ : Cell))) = 0 := by
      apply List.countP_eq_zero.mpr
      intro p _
      exact fun hc => Bool.false_ne_true hc
    rw [e1, e2]
    rfl

/-- C9 counterexample: for a concrete non-empty dataframe the legend
sheet's cells are exactly the explicit list below — a title, five
swatches and five labels (the active `CATEGORY_COLORS`), then a summary
of total task count, date span and milestone count.  It contains NO
counts grouped by assignee, category or quarter: the only numeric cells
are the total (row 11) and the milestone count (row 13). -/
theorem claim_C9_counterexample :
    (legendSheet [⟨"松永", "プラットフォーム実装", "t", ⟨3, 1, 1⟩, ⟨3, 1, 2⟩, false⟩]
        "カテゴリ" ⟨3, 1, 1⟩ ⟨3, 1, 2⟩).cells =
      [⟨1, 1, some (.s "【色の凡例】"), none⟩,
       ⟨3, 1, none, some "3498DB"⟩,
       ⟨4, 1, none, some "9B59B6"⟩,
       ⟨5, 1, none, some "E74C3C"⟩,
       ⟨6, 1, none, some "F39C12"⟩,
       ⟨7, 1, none, some "2ECC71"⟩,
       ⟨3, 2, some (.s "プラットフォーム実装"), none⟩,
       ⟨4, 2, some (.s "UX動線"), none⟩,
       ⟨5, 2, some (.s "商品コンテンツ"), none⟩,
       ⟨6, 2, some (.s "集客販促"), none⟩,
       ⟨7, 2, some (.s "データ活用"), none⟩,
       ⟨10, 1, some (.s "【サマリー】"), none⟩,
       ⟨11, 1, some (.s "総タスク数:"), none⟩,
       ⟨11, 2, some (.n 1), none⟩,
       ⟨12, 1, some (.s "期間:"), none⟩,
       ⟨12, 2, some (.s "0003/01/01 〜 0003/01/02"), none⟩,
       ⟨13, 1, some (.s "マイルストーン数:"), none⟩,
       ⟨13, 2, some (.n 0), none⟩] := by
  decide

/-- Witness for `claim_C4_stability` at a concrete input. -/
theorem claim_C4_stability_witness :
    (sortDataframe
        [⟨"B", "c", "t1", ⟨3, 1, 1⟩, ⟨3, 1, 2⟩, false⟩,
         ⟨"A", "c", "t2", ⟨3, 1, 1⟩, ⟨3, 1, 2⟩, false⟩]
        "開始日" "asc" [] []).filter
      (fun t => pandasKey "開始日" [] [] t == .byStart (toDay ⟨3, 1, 1⟩) "A") =
    ([⟨"B", "c", "t1", ⟨3, 1, 1⟩, ⟨3, 1, 2⟩, false⟩,
      ⟨"A", "c", "t2", ⟨3, 1, 1⟩, ⟨3, 1, 2⟩, false⟩] : List Task).filter
      (fun t => pandasKey "開始日" [] [] t == .byStart (toDay ⟨3, 1, 1⟩) "A") :=
  claim_C4_stability
    [⟨"B", "c", "t1", ⟨3, 1, 1⟩, ⟨3, 1, 2⟩, false⟩,
     ⟨"A", "c", "t2", ⟨3, 1, 1⟩, ⟨3, 1, 2⟩, false⟩]
    "開始日" "asc" [] [] (.byStart (toDay ⟨3, 1, 1⟩) "A")

/-- Witness for `claim_C5_amended` at concrete inputs. -/
theorem claim_C5_amended_witness :
    (([] : List Task) = [] →
      (create_excel_gantt_chart [] "week" "担当者").sheets =
        [⟨"ガントチャート", [⟨1, 1, some (.s "データがありません"), none⟩]⟩]) ∧
    (([] : List Task) ≠ [] →
      (create_excel_gantt_chart [] "week" "担当者").sheets.length = 2 ∧
      (create_excel_gantt_chart [] "week" "担当者").sheets.map Sheet.title =
        ["ガントチャート", "凡例"]) ∧
    (create_excel_gantt_chart [] "week" "担当者").sheets ≠ [] :=
  claim_C5_amended [] "week" "担当者"

/-- Witness for `claim_C9_legend_amended` at concrete inputs. -/
theorem claim_C9_legend_amended_witness :
    (∀ i (h : i < (colorMapOf "担当者").length),
      (⟨3 + i, 1, none,
          some (fillOf ((colorMapOf "担当者").get ⟨i, h⟩).2)⟩ : Cell) ∈
        (legendSheet [] "担当者" ⟨3, 1, 1⟩ ⟨3, 1, 2⟩).cells ∧
      (⟨3 + i, 2, some (.s ((colorMapOf "担当者").get ⟨i, h⟩).1), none⟩ : Cell) ∈
        (legendSheet [] "担当者" ⟨3, 1, 1⟩ ⟨3, 1, 2⟩).cells) ∧
    (⟨(colorMapOf "担当者").length + 6, 2, some (.n ([] : List Task).length),
        none⟩ : Cell) ∈ (legendSheet [] "担当者" ⟨3, 1, 1⟩ ⟨3, 1, 2⟩).cells ∧
    (⟨(colorMapOf "担当者").length + 7, 2,
        some (.s (fmtYMD ⟨3, 1, 1⟩ ++ " 〜 " ++ fmtYMD ⟨3, 1, 2⟩)), none⟩ : Cell) ∈
      (legendSheet [] "担当者" ⟨3, 1, 1⟩ ⟨3, 1, 2⟩).cells ∧
    (⟨(colorMapOf "担当者").length + 8, 2,
        some (.n (([] : List Task).countP (fun t => t.is_milestone))), none⟩ : Cell) ∈
      (legendSheet [] "担当者" ⟨3, 1, 1⟩ ⟨3, 1, 2⟩).cells ∧
    ((legendSheet [] "担当者" ⟨3, 1, 1⟩ ⟨3, 1, 2⟩).cells.countP
        (fun c => match c.value with | some (.n _) => true | _ => false)) = 2 :=
  claim_C9_legend_amended [] "担当者" ⟨3, 1, 1⟩ ⟨3, 1, 2⟩

end GanttDash
